import Mathlib

/-!
Verification development for the ADK_DebateTeam repository.

The repository declares a multi-agent debate orchestration: a tree of tasks
(leaf agents, sequential stage, parallel stage, loop stage) sharing a mutable
Context and a per-invocation Signal channel (escalate / transfer-target).
The execution engine itself (the ADK runtime driving LoopAgent,
SequentialAgent, ParallelAgent and LlmAgent) is library code not contained in
the repository: here it is modelled from the specification (spec.md §3–§4),
while every concrete parameter of the graph (agent names, output keys,
template keys, loop bound, tool transfer targets) is taken from
src/debate_team/agent.py.  The configuration logic of the deployment test
script is embedded directly from src/deployment/test_deployment.py.
-/

set_option autoImplicit false

namespace DebateTeam

/-! ## Shared Context

Modelled from the spec: a mapping from string key to string value; a later
write to the same key overwrites the prior value; keys are never deleted. -/

/-- A Context is an association list from keys to values; `ctxSet` overwrites
in place, so each key occurs at most once once inserted via `ctxSet`. -/
abbrev Context := List (String × String)

/-- Look up a key in the Context. -/
def ctxGet (ctx : Context) (k : String) : Option String :=
  match ctx with
  | [] => none
  | (k₀, v₀) :: rest => if k₀ = k then some v₀ else ctxGet rest k

/-- Write a key, overwriting the first existing binding in place (appends at
the end when the key is absent). -/
def ctxSet (ctx : Context) (k : String) (v : String) : Context :=
  match ctx with
  | [] => [(k, v)]
  | (k₀, v₀) :: rest => if k₀ = k then (k, v) :: rest else (k₀, v₀) :: ctxSet rest k v

/-! ## Signal channel

Modelled from the spec: a per-invocation mutable record with an `escalate`
flag (default false) and an optional transfer target (default none). -/

structure Signal where
  escalate : Bool
  transferTarget : Option String
deriving Repr, DecidableEq

/-- The fresh Signal created at the start of each top-level invocation. -/
def Signal.initial : Signal := ⟨false, none⟩

/-! ## Errors and capability interface -/

/-- Modelled from the spec's error taxonomy (§7). -/
inductive ExecError where
  | missingKey (key : String)
  | capabilityError
  | unknownTransferTarget (target : String)
deriving Repr, DecidableEq

/-- What one invocation of the external text-producing capability does:
either it fails (surfaced as `CapabilityError`), or it produces text and may
request escalation or a transfer via its control operations.  Modelled from
the spec's capability interface (§6) and the tool functions `end_debate`,
`return_to_greeter`, `start_debate_workflow` in src/debate_team/agent.py. -/
inductive CapResult where
  | failure
  | produced (text : String) (escalate : Bool) (transfer : Option String)
deriving Repr, DecidableEq

/-- A capability environment: the behaviour of the external capability when a
leaf named `name` is invoked, given the list of leaf invocations made so far
in this top-level invocation (so behaviour may vary per round). -/
abbrev Cap := String → List String → CapResult

/-! ## Execution state and leaf execution -/

/-- State threaded through an execution: the shared Context, the Signal, and
the trace of leaf names whose external capability has actually been invoked
(a `MissingKeyError` leaf never reaches the capability, so it leaves no trace
entry). -/
structure ExecState where
  ctx : Context
  sig : Signal
  trace : List String
deriving Repr, DecidableEq

/-- Result of one task execution. -/
inductive Outcome where
  | ok
  | error (e : ExecError)
deriving Repr, DecidableEq

/-- Static description of a LeafTask: its process-wide unique name, the
Context keys its instruction template interpolates, and its output key.
Values for the concrete agents are read off src/debate_team/agent.py. -/
structure LeafSpec where
  name : String
  templateKeys : List String
  outputKey : String
deriving Repr, DecidableEq

/-- First template key absent from the Context, if any. -/
def firstMissingKey (keys : List String) (ctx : Context) : Option String :=
  keys.find? (fun k => (ctxGet ctx k).isNone)

/-- Modelled from the spec (§4.1): a LeafTask first renders its template
(failing with `MissingKeyError` before any external call if a referenced key
is absent), then invokes the capability (recording the invocation in the
trace), writes the produced text under its output key, and applies any
requested Signal changes; a capability failure is `CapabilityError`. -/
def execLeaf (cap : Cap) (l : LeafSpec) (s : ExecState) : ExecState × Outcome :=
  match firstMissingKey l.templateKeys s.ctx with
  | some k => (s, .error (.missingKey k))
  | none =>
    match cap l.name s.trace with
    | .failure => ({ s with trace := s.trace ++ [l.name] }, .error .capabilityError)
    | .produced text esc tr =>
      ({ ctx := ctxSet s.ctx l.outputKey text,
         sig := { escalate := s.sig.escalate || esc,
                  transferTarget := tr.orElse (fun _ => s.sig.transferTarget) },
         trace := s.trace ++ [l.name] }, .ok)

/-! ## Stage combinators

Each combinator is parameterised by the executor `run` of its children, so
the same definitions serve both the general claims (arbitrary children) and
the concrete debate graph. -/

/-- Modelled from the spec (§4.2): SequentialStage executes children in the
fixed given order, each seeing the state left by its predecessors; a child
error aborts the remaining children and propagates; a pending transfer
target stops further siblings and propagates upward unresolved. -/
def execSeqChildren {α : Type} (run : α → ExecState → ExecState × Outcome) :
    List α → ExecState → ExecState × Outcome
  | [], s => (s, .ok)
  | c :: cs, s =>
    match run c s with
    | (s₁, .error e) => (s₁, .error e)
    | (s₁, .ok) =>
      if (s₁.sig.transferTarget).isSome then (s₁, .ok)
      else execSeqChildren run cs s₁

/-- Modelled from the spec (§4.3): ParallelStage runs all children against
the same shared Context and joins on completion of all of them.  The shallow
embedding sequentialises one completion order: `children` is given in the
order the siblings finish.  Every child is run to completion even when an
earlier sibling failed (in-flight work is drained), and the first failure in
completion order is the one the stage surfaces. -/
def execParChildren {α : Type} (run : α → ExecState → ExecState × Outcome) :
    List α → ExecState → ExecState × Outcome
  | [], s => (s, .ok)
  | c :: cs, s =>
    match run c s with
    | (s₁, o) =>
      match execParChildren run cs s₁ with
      | (s₂, o₂) =>
        (s₂, match o with
             | .error e => .error e
             | .ok => o₂)

/-- Terminal state of a LoopStage run, from the spec's state machine (§4.4):
early exit on a consumed escalate flag, normal exhaustion of the iteration
bound, or termination with a child's error. -/
inductive LoopExit where
  | earlyExit
  | boundExhausted
  | errored (e : ExecError)
deriving Repr, DecidableEq

/-- Round-robin loop body over the list `idxs` of remaining iteration
indices: iteration `j` executes the child at position `j % all.length`
(children repeat from index 0 after the last).  After each child execution
the escalate flag is checked; if set, the loop terminates early, clears the
flag and reports `earlyExit`.  Returns the final state, the children
executed in order, and the terminal state.  Modelled from the spec (§4.4). -/
def execLoopIdx {α : Type} (run : α → ExecState → ExecState × Outcome) (all : List α) :
    List Nat → ExecState → ExecState × List α × LoopExit
  | [], s => (s, [], .boundExhausted)
  | j :: js, s =>
    match all[j % all.length]? with
    | none => (s, [], .boundExhausted)
    | some c =>
      match run c s with
      | (s₁, .error e) => (s₁, [c], .errored e)
      | (s₁, .ok) =>
        if s₁.sig.escalate then
          ({ s₁ with sig := { s₁.sig with escalate := false } }, [c], .earlyExit)
        else
          match execLoopIdx run all js s₁ with
          | (s₂, ex, x) => (s₂, c :: ex, x)

/-- Modelled from the spec (§4.4): a LoopStage with iteration bound `bound`
performs at most `bound` single-child executions ("one iteration = one
execution of exactly one child"), selecting children round-robin starting at
child index 0. -/
def execLoop {α : Type} (run : α → ExecState → ExecState × Outcome) (all : List α)
    (bound : Nat) (s : ExecState) : ExecState × List α × LoopExit :=
  execLoopIdx run all (List.range bound) s

/-! ## The concrete debate graph

Every parameter below is read off src/debate_team/agent.py: agent names,
instruction template placeholders, `output_key` fields, `sub_agents` lists,
`max_iterations=8`, and the transfer targets hard-coded in the tool
functions `return_to_greeter` / `start_debate_workflow`. -/

/-- Target set by the `return_to_greeter` tool:
`tool_context.actions.transfer_to_agent = "DebateTeamGreeter"`. -/
def returnToGreeterTarget : String := "DebateTeamGreeter"

/-- Target set by the `start_debate_workflow` tool:
`tool_context.actions.transfer_to_agent = "AIDebateWorkflow"`. -/
def startDebateWorkflowTarget : String := "AIDebateWorkflow"

/-- The root greeter agent (`root_agent`): no template placeholder in its
instruction, output key `debate_topic`. -/
def greeterLeaf : LeafSpec :=
  ⟨"DebateTeamGreeter", [], "debate_topic"⟩

/-- `role_assignment_agent`: no template placeholder, output key
`role_assignments`. -/
def roleAssignmentLeaf : LeafSpec :=
  ⟨"RoleAssignmentAgent", [], "role_assignments"⟩

/-- `proponent_researcher`: interpolates `{role_assignments}`, output key
`proponent_research_findings`. -/
def proponentResearcherLeaf : LeafSpec :=
  ⟨"ProponentResearcher", ["role_assignments"], "proponent_research_findings"⟩

/-- `opponent_researcher`: interpolates `{role_assignments}`, output key
`opponent_research_findings`. -/
def opponentResearcherLeaf : LeafSpec :=
  ⟨"OpponentResearcher", ["role_assignments"], "opponent_research_findings"⟩

/-- `proponent_debater`: interpolates the role assignments and both research
findings; output key `current_round` (shared with the opponent debater). -/
def proponentDebaterLeaf : LeafSpec :=
  ⟨"ProponentDebater",
   ["role_assignments", "proponent_research_findings", "opponent_research_findings"],
   "current_round"⟩

/-- `opponent_debater`: interpolates the role assignments and both research
findings; output key `current_round` (shared with the proponent debater). -/
def opponentDebaterLeaf : LeafSpec :=
  ⟨"OpponentDebater",
   ["role_assignments", "opponent_research_findings", "proponent_research_findings"],
   "current_round"⟩

/-- `debate_aggregator` (name `DebateStrategicAnalyst`): interpolates all
four upstream keys; output key `debate_analysis`. -/
def debateAggregatorLeaf : LeafSpec :=
  ⟨"DebateStrategicAnalyst",
   ["role_assignments", "proponent_research_findings", "opponent_research_findings",
    "current_round"],
   "debate_analysis"⟩

/-- `debate_summarizer` (name `DebateSummarizerAgent`): interpolates the role
assignments and the strategic analysis; output key `final_debate_summary`;
carries the `return_to_greeter` transfer tool. -/
def debateSummarizerLeaf : LeafSpec :=
  ⟨"DebateSummarizerAgent", ["role_assignments", "debate_analysis"],
   "final_debate_summary"⟩

/-- Children of the loop stage `IterativeDebateLoop`, in the declared order:
proponent first, then opponent. -/
def debateLoopChildren : List LeafSpec :=
  [proponentDebaterLeaf, opponentDebaterLeaf]

/-- `max_iterations=8` of `IterativeDebateLoop`. -/
def debateLoopBound : Nat := 8

/-- Children of the parallel stage `ParallelStanceResearcher`, as declared. -/
def researchChildren : List LeafSpec :=
  [proponentResearcherLeaf, opponentResearcherLeaf]

/-- A loop terminal state viewed as a stage outcome: reaching the iteration
bound is a normal terminal state, not a failure (spec §7). -/
def LoopExit.toOutcome : LoopExit → Outcome
  | .earlyExit => .ok
  | .boundExhausted => .ok
  | .errored e => .error e

/-- The five children of the sequential stage `AIDebateWorkflow`, in the
declared order. -/
inductive WorkflowChild where
  | roleAssign
  | research
  | debateLoop
  | aggregate
  | summarize
deriving Repr, DecidableEq

/-- Executor of one `AIDebateWorkflow` child.  The parallel stage is run in
declaration order of its siblings (by C4 this choice does not affect the
resulting Context on success). -/
def runWorkflowChild (cap : Cap) : WorkflowChild → ExecState → ExecState × Outcome
  | .roleAssign, s => execLeaf cap roleAssignmentLeaf s
  | .research, s => execParChildren (execLeaf cap) researchChildren s
  | .debateLoop, s =>
    match execLoop (execLeaf cap) debateLoopChildren debateLoopBound s with
    | (s₁, _, x) => (s₁, x.toOutcome)
  | .aggregate, s => execLeaf cap debateAggregatorLeaf s
  | .summarize, s => execLeaf cap debateSummarizerLeaf s

/-- The `AIDebateWorkflow` sequential stage. -/
def execDebateWorkflow (cap : Cap) (s : ExecState) : ExecState × Outcome :=
  execSeqChildren (runWorkflowChild cap)
    [.roleAssign, .research, .debateLoop, .aggregate, .summarize] s

/-! ## Top-level executor and transfer resolution -/

/-- The process-wide registry of transfer targets: the greeter and the
workflow root, the two names targeted by the transfer tools. -/
def lookupTask (cap : Cap) (name : String) :
    Option (ExecState → ExecState × Outcome) :=
  if name = "DebateTeamGreeter" then some (execLeaf cap greeterLeaf)
  else if name = "AIDebateWorkflow" then some (execDebateWorkflow cap)
  else none

/-- Clearing the Signal when the Executor resolves a transfer (spec §4.5:
the target begins executing fresh, sharing the same Context and a cleared
Signal). -/
def clearSignal (s : ExecState) : ExecState :=
  { s with sig := Signal.initial }

/-- Where a top-level run stands: the name of the task currently holding
control, the shared state, and the outcome so far. -/
structure TopResult where
  currentTask : String
  state : ExecState
  outcome : Outcome
deriving Repr, DecidableEq

/-- Modelled from the spec (§4.5): the Executor runs the current named task;
on an unresolved transfer target it looks the name up in the registry,
clears the Signal, and continues there with the same Context.  `fuel` bounds
the number of task executions (the dispatcher ⇄ workflow cycle is
user-driven and unbounded); with fuel exhausted the run is reported
suspended at the task currently holding control. -/
def runFrom (cap : Cap) : Nat → String → ExecState → TopResult
  | 0, name, s => ⟨name, s, .ok⟩
  | fuel + 1, name, s =>
    match lookupTask cap name with
    | none => ⟨name, s, .error (.unknownTransferTarget name)⟩
    | some run =>
      match run s with
      | (s₁, .error e) => ⟨name, s₁, .error e⟩
      | (s₁, .ok) =>
        match s₁.sig.transferTarget with
        | none => ⟨name, s₁, .ok⟩
        | some t => runFrom cap fuel t (clearSignal s₁)

/-! ## Basic Context lemmas -/

theorem ctxGet_ctxSet (ctx : Context) (k k' v : String) :
    ctxGet (ctxSet ctx k v) k' = if k = k' then some v else ctxGet ctx k' := by
  induction ctx with
  | nil =>
    by_cases h : k = k' <;> simp [ctxSet, ctxGet, h]
  | cons p rest ih =>
    obtain ⟨k₀, v₀⟩ := p
    by_cases h₀ : k₀ = k
    · subst h₀
      by_cases h : k₀ = k' <;> simp [ctxSet, ctxGet, h]
    · by_cases h : k₀ = k'
      · subst h
        have hk : ¬ k = k₀ := fun hh => h₀ hh.symm
        simp [ctxSet, ctxGet, h₀, hk]
      · simp [ctxSet, ctxGet, h₀, h, ih]

theorem ctxGet_ctxSet_self (ctx : Context) (k v : String) :
    ctxGet (ctxSet ctx k v) k = some v := by
  simp [ctxGet_ctxSet]

theorem ctxGet_ctxSet_other (ctx : Context) (k k' v : String) (h : k ≠ k') :
    ctxGet (ctxSet ctx k v) k' = ctxGet ctx k' := by
  simp [ctxGet_ctxSet, h]

/-- A key present in the Context is still present after any single write. -/
theorem ctxSet_preserves_present (ctx : Context) (k k' v : String)
    (h : (ctxGet ctx k').isSome) : (ctxGet (ctxSet ctx k v) k').isSome := by
  rw [ctxGet_ctxSet]
  by_cases hk : k = k' <;> simp [hk, h]

/-! ## General LoopStage lemmas -/

/-- Unfolding equation: no iteration indices left. -/
theorem execLoopIdx_nil {α : Type} (run : α → ExecState → ExecState × Outcome)
    (all : List α) (s : ExecState) :
    execLoopIdx run all [] s = (s, [], .boundExhausted) := rfl

/-- Unfolding equation for one loop step. -/
theorem execLoopIdx_cons {α : Type} (run : α → ExecState → ExecState × Outcome)
    (all : List α) (j : Nat) (js : List Nat) (s : ExecState) :
    execLoopIdx run all (j :: js) s =
      match all[j % all.length]? with
      | none => (s, [], .boundExhausted)
      | some c =>
        match run c s with
        | (s₁, .error e) => (s₁, [c], .errored e)
        | (s₁, .ok) =>
          if s₁.sig.escalate then
            ({ s₁ with sig := { s₁.sig with escalate := false } }, [c], .earlyExit)
          else
            match execLoopIdx run all js s₁ with
            | (s₂, ex, x) => (s₂, c :: ex, x) := rfl

/-- The loop performs at most one child execution per remaining iteration
index. -/
theorem execLoopIdx_length_le {α : Type} (run : α → ExecState → ExecState × Outcome)
    (all : List α) (js : List Nat) :
    ∀ s : ExecState, (execLoopIdx run all js s).2.1.length ≤ js.length := by
  induction js with
  | nil => intro s; simp [execLoopIdx_nil]
  | cons j js ih =>
    intro s
    cases hg : all[j % all.length]? with
    | none => simp [execLoopIdx_cons, hg]
    | some c =>
      cases hr : run c s with
      | mk s₁ o =>
        cases o with
        | error e => simp [execLoopIdx_cons, hg, hr]
        | ok =>
          by_cases he : s₁.sig.escalate = true
          · simp [execLoopIdx_cons, hg, hr, he]
          · have h := ih s₁
            simp only [execLoopIdx_cons, hg, hr, he, if_false, Bool.false_eq_true,
              List.length_cons]
            exact Nat.add_le_add_right h 1

/-- The i-th child executed by the loop is the child at position
`(i-th iteration index) % all.length`. -/
theorem execLoopIdx_getElem {α : Type} (run : α → ExecState → ExecState × Outcome)
    (all : List α) (js : List Nat) :
    ∀ (s : ExecState) (i : Nat), i < (execLoopIdx run all js s).2.1.length →
      (execLoopIdx run all js s).2.1[i]? = all[(js[i]?.getD 0) % all.length]? := by
  induction js with
  | nil => intro s i hi; simp [execLoopIdx_nil] at hi
  | cons j js ih =>
    intro s i hi
    cases hg : all[j % all.length]? with
    | none => simp [execLoopIdx_cons, hg] at hi
    | some c =>
      cases hr : run c s with
      | mk s₁ o =>
        cases o with
        | error e =>
          simp only [execLoopIdx_cons, hg, hr] at hi ⊢
          simp only [List.length_singleton] at hi
          interval_cases i
          simpa using hg.symm
        | ok =>
          by_cases he : s₁.sig.escalate = true
          · simp only [execLoopIdx_cons, hg, hr, he, if_true] at hi ⊢
            simp only [List.length_singleton] at hi
            interval_cases i
            simpa using hg.symm
          · simp only [execLoopIdx_cons, hg, hr, he, if_false, Bool.false_eq_true,
              List.length_cons] at hi ⊢
            cases i with
            | zero => simpa using hg.symm
            | succ i' =>
              have h := ih s₁ i' (Nat.lt_of_succ_lt_succ hi)
              simpa using h

/-- C1 instance helpers: the concrete loop children and alternation map. -/
def debaterAt (i : Nat) : LeafSpec :=
  if i % 2 = 0 then proponentDebaterLeaf else opponentDebaterLeaf

/-- A capability that always succeeds, never escalates and never transfers
(used to instantiate concrete runs). -/
def capAllOk : Cap := fun _ _ => .produced "text" false none

/-- A Context containing every key the debate agents interpolate. -/
def fullCtx : Context :=
  [("debate_topic", "t"), ("role_assignments", "r"),
   ("proponent_research_findings", "p"), ("opponent_research_findings", "o"),
   ("current_round", "c"), ("debate_analysis", "a")]

/-- Initial state for concrete runs: full Context, fresh Signal, empty
invocation trace. -/
def initState : ExecState := ⟨fullCtx, Signal.initial, []⟩

/-- C1: one LoopStage iteration executes exactly one child (not one full
cycle), children are selected round-robin starting at child index 0 (the
i-th executed child is the child at index i % k), and the total number of
child executions is at most the iteration bound N; for the concrete
IterativeDebateLoop (bound 8, children the two debaters) this yields at
most 8 debater invocations per loop run and at most 4 per side. -/
theorem c1_loop_bound_and_round_robin :
    (∀ (α : Type) (run : α → ExecState → ExecState × Outcome) (all : List α)
        (bound : Nat) (s : ExecState),
      (execLoop run all bound s).2.1.length ≤ bound) ∧
    (∀ (α : Type) (run : α → ExecState → ExecState × Outcome) (all : List α)
        (bound : Nat) (s : ExecState) (i : Nat),
      i < (execLoop run all bound s).2.1.length →
      (execLoop run all bound s).2.1[i]? = all[i % all.length]?) ∧
    (∀ (cap : Cap) (s : ExecState),
      (execLoop (execLeaf cap) debateLoopChildren debateLoopBound s).2.1.length ≤ 8 ∧
      (execLoop (execLeaf cap) debateLoopChildren debateLoopBound s).2.1.count
          proponentDebaterLeaf ≤ 4 ∧
      (execLoop (execLeaf cap) debateLoopChildren debateLoopBound s).2.1.count
          opponentDebaterLeaf ≤ 4) := by
  have h1 : ∀ (α : Type) (run : α → ExecState → ExecState × Outcome) (all : List α)
      (bound : Nat) (s : ExecState),
      (execLoop run all bound s).2.1.length ≤ bound := by
    intro α run all bound s
    have h := execLoopIdx_length_le run all (List.range bound) s
    simpa [execLoop] using h
  have h2 : ∀ (α : Type) (run : α → ExecState → ExecState × Outcome) (all : List α)
      (bound : Nat) (s : ExecState) (i : Nat),
      i < (execLoop run all bound s).2.1.length →
      (execLoop run all bound s).2.1[i]? = all[i % all.length]? := by
    intro α run all bound s i hi
    have hb : i < bound := lt_of_lt_of_le hi (h1 α run all bound s)
    have h := execLoopIdx_getElem run all (List.range bound) s i hi
    rw [List.getElem?_range hb] at h
    simpa [execLoop] using h
  refine ⟨h1, h2, ?_⟩
  intro cap s
  set ex := (execLoop (execLeaf cap) debateLoopChildren debateLoopBound s).2.1 with hex
  have hlen : ex.length ≤ 8 := h1 LeafSpec (execLeaf cap) debateLoopChildren 8 s
  have hpos : ∀ i, i < ex.length → ex[i]? = debateLoopChildren[i % 2]? := by
    intro i hi
    have h := h2 LeafSpec (execLeaf cap) debateLoopChildren debateLoopBound s i hi
    simpa [debateLoopChildren] using h
  have hchar : ex = (List.range ex.length).map debaterAt := by
    apply List.ext_getElem?
    intro i
    by_cases hi : i < ex.length
    · rw [hpos i hi, List.getElem?_map, List.getElem?_range hi]
      rcases Nat.mod_two_eq_zero_or_one i with h | h <;>
        simp [debateLoopChildren, debaterAt, h]
    · have hge : ex.length ≤ i := Nat.le_of_not_lt hi
      rw [List.getElem?_eq_none hge, List.getElem?_eq_none (by simpa using hge)]
  have key : ∀ n, n ≤ 8 →
      ((List.range n).map debaterAt).count proponentDebaterLeaf ≤ 4 ∧
      ((List.range n).map debaterAt).count opponentDebaterLeaf ≤ 4 := by
    intro n hn
    interval_cases n <;> exact ⟨by decide, by decide⟩
  refine ⟨hlen, ?_, ?_⟩
  · rw [hchar]
    exact (key ex.length hlen).1
  · rw [hchar]
    exact (key ex.length hlen).2

/-- Witness for C1: a concrete run of the IterativeDebateLoop in which the
bound on executed children is non-vacuous and iteration 0 runs child 0. -/
theorem c1_loop_bound_and_round_robin_witness :
    0 < (execLoop (execLeaf capAllOk) debateLoopChildren debateLoopBound
          initState).2.1.length ∧
    (execLoop (execLeaf capAllOk) debateLoopChildren debateLoopBound
          initState).2.1[0]? =
      debateLoopChildren[0 % debateLoopChildren.length]? :=
  ⟨by decide,
   c1_loop_bound_and_round_robin.2.1 LeafSpec (execLeaf capAllOk)
     debateLoopChildren debateLoopBound initState 0 (by decide)⟩

/-! ## C2: the escalation scenario -/

/-- Writing the shared debate key leaves `role_assignments` unchanged. -/
theorem ctxGet_set_current_round_ra (ctx : Context) (v : String) :
    ctxGet (ctxSet ctx "current_round" v) "role_assignments" =
      ctxGet ctx "role_assignments" :=
  ctxGet_ctxSet_other ctx _ _ v (by decide)

/-- Writing the shared debate key leaves `proponent_research_findings`
unchanged. -/
theorem ctxGet_set_current_round_pr (ctx : Context) (v : String) :
    ctxGet (ctxSet ctx "current_round" v) "proponent_research_findings" =
      ctxGet ctx "proponent_research_findings" :=
  ctxGet_ctxSet_other ctx _ _ v (by decide)

/-- Writing the shared debate key leaves `opponent_research_findings`
unchanged. -/
theorem ctxGet_set_current_round_or (ctx : Context) (v : String) :
    ctxGet (ctxSet ctx "current_round" v) "opponent_research_findings" =
      ctxGet ctx "opponent_research_findings" :=
  ctxGet_ctxSet_other ctx _ _ v (by decide)

/-- C2: in the IterativeDebateLoop (bound 8, children A = ProponentDebater
and B = OpponentDebater run round-robin from A), if A's capability requests
escalation during A's 3rd invocation (the 5th child execution overall) and
no earlier execution escalated or failed, then — because the loop checks the
escalate flag after each child execution — exactly 5 child executions occur,
the last executed child is A, and the loop terminates in the early-exit
success state with the escalate flag consumed. -/
theorem c2_escalation_on_fifth_execution
    (cap : Cap) (s : ExecState) (tA₁ tB₁ tA₂ tB₂ tA₃ : String)
    (hsig : s.sig.escalate = false)
    (htr : s.trace = [])
    (hra : ∃ v, ctxGet s.ctx "role_assignments" = some v)
    (hpr : ∃ v, ctxGet s.ctx "proponent_research_findings" = some v)
    (hor : ∃ v, ctxGet s.ctx "opponent_research_findings" = some v)
    (hA₁ : cap "ProponentDebater" [] = .produced tA₁ false none)
    (hB₁ : cap "OpponentDebater" ["ProponentDebater"] = .produced tB₁ false none)
    (hA₂ : cap "ProponentDebater" ["ProponentDebater", "OpponentDebater"] =
      .produced tA₂ false none)
    (hB₂ : cap "OpponentDebater"
        ["ProponentDebater", "OpponentDebater", "ProponentDebater"] =
      .produced tB₂ false none)
    (hA₃ : cap "ProponentDebater"
        ["ProponentDebater", "OpponentDebater", "ProponentDebater",
         "OpponentDebater"] =
      .produced tA₃ true none) :
    (execLoop (execLeaf cap) debateLoopChildren debateLoopBound s).2.1 =
      [proponentDebaterLeaf, opponentDebaterLeaf, proponentDebaterLeaf,
       opponentDebaterLeaf, proponentDebaterLeaf] ∧
    (execLoop (execLeaf cap) debateLoopChildren debateLoopBound s).2.2 =
      .earlyExit ∧
    (execLoop (execLeaf cap) debateLoopChildren debateLoopBound s).1.sig.escalate =
      false := by
  obtain ⟨ra, hra⟩ := hra
  obtain ⟨pr, hpr⟩ := hpr
  obtain ⟨og, hor⟩ := hor
  have hrange : List.range debateLoopBound = [0, 1, 2, 3, 4, 5, 6, 7] := by decide
  refine ⟨?_, ?_, ?_⟩ <;>
    simp [execLoop, hrange, execLoopIdx_cons, execLoopIdx_nil, debateLoopChildren,
      execLeaf, proponentDebaterLeaf, opponentDebaterLeaf, firstMissingKey,
      List.find?, Option.orElse, htr, hsig, hra, hpr, hor, hA₁, hB₁, hA₂, hB₂, hA₃,
      ctxGet_set_current_round_ra, ctxGet_set_current_round_pr,
      ctxGet_set_current_round_or]

/-- A concrete capability for the C2 scenario: ProponentDebater requests
escalation on its 3rd invocation (trace length 4), everything else succeeds
quietly. -/
def capC2 : Cap := fun name tr =>
  if name = "ProponentDebater" && tr.length == 4 then .produced "x" true none
  else .produced "y" false none

/-- Witness for C2: the scenario realised by `capC2` from `initState`. -/
theorem c2_escalation_on_fifth_execution_witness :
    (execLoop (execLeaf capC2) debateLoopChildren debateLoopBound initState).2.1 =
      [proponentDebaterLeaf, opponentDebaterLeaf, proponentDebaterLeaf,
       opponentDebaterLeaf, proponentDebaterLeaf] ∧
    (execLoop (execLeaf capC2) debateLoopChildren debateLoopBound initState).2.2 =
      .earlyExit :=
  have h := c2_escalation_on_fifth_execution capC2 initState "y" "y" "y" "y" "x"
    rfl rfl ⟨"r", by decide⟩ ⟨"p", by decide⟩ ⟨"o", by decide⟩
    (by decide) (by decide) (by decide) (by decide) (by decide)
  ⟨h.1, h.2.1⟩

/-! ## C5: MissingKeyError fails before the external call -/

/-- A state with an empty Context (no key has been written yet). -/
def emptyState : ExecState := ⟨[], Signal.initial, []⟩

/-- C5: a LeafTask whose template references a Context key absent at
execution time fails with MissingKeyError and returns the state — including
the capability-invocation trace — unchanged, so no external call is
attempted; in particular ProponentResearcher, whose template interpolates
role_assignments, fails this way when executed before that key is written. -/
theorem c5_missing_key_fails_before_call :
    (∀ (cap : Cap) (l : LeafSpec) (s : ExecState) (k : String),
      firstMissingKey l.templateKeys s.ctx = some k →
      execLeaf cap l s = (s, .error (.missingKey k))) ∧
    (∀ (cap : Cap) (s : ExecState),
      ctxGet s.ctx "role_assignments" = none →
      execLeaf cap proponentResearcherLeaf s =
        (s, .error (.missingKey "role_assignments")) ∧
      (execLeaf cap proponentResearcherLeaf s).1.trace = s.trace) := by
  have h1 : ∀ (cap : Cap) (l : LeafSpec) (s : ExecState) (k : String),
      firstMissingKey l.templateKeys s.ctx = some k →
      execLeaf cap l s = (s, .error (.missingKey k)) := by
    intro cap l s k h
    simp [execLeaf, h]
  refine ⟨h1, ?_⟩
  intro cap s h
  have hm : firstMissingKey proponentResearcherLeaf.templateKeys s.ctx =
      some "role_assignments" := by
    simp [firstMissingKey, proponentResearcherLeaf, List.find?, h]
  refine ⟨h1 cap _ s _ hm, ?_⟩
  rw [h1 cap _ s _ hm]

/-- Witness for C5: running ProponentResearcher on an empty Context fails
with MissingKeyError for role_assignments without touching the trace. -/
theorem c5_missing_key_fails_before_call_witness :
    execLeaf capAllOk proponentResearcherLeaf emptyState =
      (emptyState, .error (.missingKey "role_assignments")) :=
  (c5_missing_key_fails_before_call.2 capAllOk emptyState rfl).1

/-! ## C9: escalation is consumed -/

/-- C9: once a LoopStage consumes Signal.escalate (early-exit termination),
the flag is false afterwards; and the flag stays false through any later
leaf execution whose capability does not request escalation, and through
sequential or parallel stages all of whose children preserve a false flag —
so every subsequent check in the same invocation sees false unless a later
child sets the flag again. -/
theorem c9_escalation_idempotence :
    (∀ (α : Type) (run : α → ExecState → ExecState × Outcome) (all : List α)
        (js : List Nat) (s : ExecState),
      (execLoopIdx run all js s).2.2 = .earlyExit →
      (execLoopIdx run all js s).1.sig.escalate = false) ∧
    (∀ (cap : Cap) (l : LeafSpec) (s : ExecState),
      s.sig.escalate = false →
      (∀ t esc tr, cap l.name s.trace = .produced t esc tr → esc = false) →
      (execLeaf cap l s).1.sig.escalate = false) ∧
    (∀ (α : Type) (run : α → ExecState → ExecState × Outcome) (cs : List α)
        (s : ExecState),
      (∀ c s', s'.sig.escalate = false → (run c s').1.sig.escalate = false) →
      s.sig.escalate = false →
      (execSeqChildren run cs s).1.sig.escalate = false) ∧
    (∀ (α : Type) (run : α → ExecState → ExecState × Outcome) (cs : List α)
        (s : ExecState),
      (∀ c s', s'.sig.escalate = false → (run c s').1.sig.escalate = false) →
      s.sig.escalate = false →
      (execParChildren run cs s).1.sig.escalate = false) := by
  refine ⟨?_, ?_, ?_, ?_⟩
  · intro α run all js
    induction js with
    | nil => intro s h; simp [execLoopIdx_nil] at h
    | cons j js ih =>
      intro s h
      cases hg : all[j % all.length]? with
      | none => simp [execLoopIdx_cons, hg] at h
      | some c =>
        cases hr : run c s with
        | mk s₁ o =>
          cases o with
          | error e => simp [execLoopIdx_cons, hg, hr] at h
          | ok =>
            by_cases he : s₁.sig.escalate = true
            · simp [execLoopIdx_cons, hg, hr, he]
            · simp only [execLoopIdx_cons, hg, hr, he, if_false,
                Bool.false_eq_true] at h ⊢
              exact ih s₁ h
  · intro cap l s hs hcap
    cases hm : firstMissingKey l.templateKeys s.ctx with
    | some k => simp [execLeaf, hm, hs]
    | none =>
      cases hc : cap l.name s.trace with
      | failure => simp [execLeaf, hm, hc, hs]
      | produced t esc tr =>
        have := hcap t esc tr hc
        simp [execLeaf, hm, hc, hs, this]
  · intro α run cs
    induction cs with
    | nil => intro s hrun hs; simpa [execSeqChildren] using hs
    | cons c cs ih =>
      intro s hrun hs
      cases hr : run c s with
      | mk s₁ o =>
        have hs₁ : s₁.sig.escalate = false := by
          have h := hrun c s hs
          rw [hr] at h
          exact h
        cases o with
        | error e => simpa [execSeqChildren, hr] using hs₁
        | ok =>
          by_cases ht : (s₁.sig.transferTarget).isSome
          · simpa [execSeqChildren, hr, ht] using hs₁
          · simp only [execSeqChildren, hr, ht, if_false]
            exact ih s₁ hrun hs₁
  · intro α run cs
    induction cs with
    | nil => intro s hrun hs; simpa [execParChildren] using hs
    | cons c cs ih =>
      intro s hrun hs
      cases hr : run c s with
      | mk s₁ o =>
        have hs₁ : s₁.sig.escalate = false := by
          have h := hrun c s hs
          rw [hr] at h
          exact h
        have h := ih s₁ hrun hs₁
        cases hx : execParChildren run cs s₁ with
        | mk s₂ o₂ =>
          rw [hx] at h
          simpa [execParChildren, hr, hx] using h

/-- Witness for C9: the early-exiting C2 loop run ends with the escalate
flag consumed. -/
theorem c9_escalation_idempotence_witness :
    (execLoopIdx (execLeaf capC2) debateLoopChildren (List.range 8)
        initState).1.sig.escalate = false :=
  c9_escalation_idempotence.1 LeafSpec (execLeaf capC2) debateLoopChildren
    (List.range 8) initState (by decide)

/-! ## C4: ParallelStage determinism of outcome -/

/-- C4: when both researchers complete successfully, the resulting Context
binds proponent_research_findings and opponent_research_findings to the
respective child's produced value, and the Context is extensionally the
same whichever sibling finishes first (both completion orders of the
ParallelStanceResearcher children). -/
theorem c4_parallel_determinism
    (cap : Cap) (s : ExecState) (tp tq : String)
    (hP : ∀ tr, cap "ProponentResearcher" tr = .produced tp false none)
    (hO : ∀ tr, cap "OpponentResearcher" tr = .produced tq false none)
    (hra : ∃ v, ctxGet s.ctx "role_assignments" = some v) :
    ((execParChildren (execLeaf cap) researchChildren s).2 = .ok ∧
     ctxGet (execParChildren (execLeaf cap) researchChildren s).1.ctx
        "proponent_research_findings" = some tp ∧
     ctxGet (execParChildren (execLeaf cap) researchChildren s).1.ctx
        "opponent_research_findings" = some tq) ∧
    ((execParChildren (execLeaf cap)
        [opponentResearcherLeaf, proponentResearcherLeaf] s).2 = .ok ∧
     ctxGet (execParChildren (execLeaf cap)
        [opponentResearcherLeaf, proponentResearcherLeaf] s).1.ctx
        "proponent_research_findings" = some tp ∧
     ctxGet (execParChildren (execLeaf cap)
        [opponentResearcherLeaf, proponentResearcherLeaf] s).1.ctx
        "opponent_research_findings" = some tq) ∧
    (∀ k, ctxGet (execParChildren (execLeaf cap) researchChildren s).1.ctx k =
      ctxGet (execParChildren (execLeaf cap)
        [opponentResearcherLeaf, proponentResearcherLeaf] s).1.ctx k) := by
  obtain ⟨ra, hra⟩ := hra
  refine ⟨⟨?_, ?_, ?_⟩, ⟨?_, ?_, ?_⟩, ?_⟩ <;>
    [skip; skip; skip; skip; skip; skip; intro k] <;>
    simp only [execParChildren, researchChildren, execLeaf,
      proponentResearcherLeaf, opponentResearcherLeaf, firstMissingKey,
      List.find?, ctxGet_ctxSet, hra, hP, hO, Option.orElse] <;>
    simp [ctxGet_ctxSet, hra] <;>
    by_cases h₁ : "proponent_research_findings" = k <;>
    by_cases h₂ : "opponent_research_findings" = k <;>
    first
      | exact absurd (h₂.trans h₁.symm) (by decide)
      | simp [h₁, h₂]

/-- Witness for C4: both completion orders with an always-successful
capability from the fully-seeded state agree and bind both keys. -/
theorem c4_parallel_determinism_witness :
    ctxGet (execParChildren (execLeaf capAllOk) researchChildren
        initState).1.ctx "proponent_research_findings" = some "text" ∧
    ctxGet (execParChildren (execLeaf capAllOk)
        [opponentResearcherLeaf, proponentResearcherLeaf] initState).1.ctx
        "proponent_research_findings" = some "text" :=
  have h := c4_parallel_determinism capAllOk initState "text" "text"
    (fun _ => rfl) (fun _ => rfl) ⟨"r", by decide⟩
  ⟨h.1.2.1, h.2.1.2.1⟩

/-! ## C7: ParallelStage failure with a draining sibling -/

/-- C7: in the ParallelStanceResearcher, when the proponent researcher's
capability fails (CapabilityError) and the opponent researcher succeeds,
the stage surfaces the CapabilityError, yet the opponent was still invoked
after the failure was known (both names appear in the invocation trace, so
no work is left unawaited) and its Context write survives. -/
theorem c7_parallel_failure_drains_sibling
    (cap : Cap) (s : ExecState) (tq : String)
    (hP : cap "ProponentResearcher" s.trace = .failure)
    (hO : cap "OpponentResearcher" (s.trace ++ ["ProponentResearcher"]) =
      .produced tq false none)
    (hra : ∃ v, ctxGet s.ctx "role_assignments" = some v) :
    (execParChildren (execLeaf cap) researchChildren s).2 =
      .error .capabilityError ∧
    ctxGet (execParChildren (execLeaf cap) researchChildren s).1.ctx
        "opponent_research_findings" = some tq ∧
    (execParChildren (execLeaf cap) researchChildren s).1.trace =
      s.trace ++ ["ProponentResearcher", "OpponentResearcher"] := by
  obtain ⟨ra, hra⟩ := hra
  refine ⟨?_, ?_, ?_⟩ <;>
    simp [execParChildren, researchChildren, execLeaf,
      proponentResearcherLeaf, opponentResearcherLeaf, firstMissingKey,
      List.find?, ctxGet_ctxSet, hra, hP, hO, Option.orElse]

/-- A capability for the C7 scenario: the proponent researcher's external
call fails, every other call succeeds. -/
def capC7 : Cap := fun name _ =>
  if name = "ProponentResearcher" then .failure
  else .produced "y" false none

/-- Witness for C7: the scenario realised by `capC7` from `initState`. -/
theorem c7_parallel_failure_drains_sibling_witness :
    (execParChildren (execLeaf capC7) researchChildren initState).2 =
      .error .capabilityError ∧
    ctxGet (execParChildren (execLeaf capC7) researchChildren
        initState).1.ctx "opponent_research_findings" = some "y" :=
  have h := c7_parallel_failure_drains_sibling capC7 initState "y"
    (by decide) (by decide) ⟨"r", by decide⟩
  ⟨h.1, h.2.1⟩

/-! ## C6: SequentialStage ordering and error propagation -/

/-- Unfolding equation: an empty SequentialStage succeeds immediately. -/
theorem execSeqChildren_nil {α : Type} (run : α → ExecState → ExecState × Outcome)
    (s : ExecState) : execSeqChildren run ([] : List α) s = (s, .ok) := rfl

/-- Unfolding equation for one SequentialStage step. -/
theorem execSeqChildren_cons {α : Type} (run : α → ExecState → ExecState × Outcome)
    (c : α) (cs : List α) (s : ExecState) :
    execSeqChildren run (c :: cs) s =
      match run c s with
      | (s₁, .error e) => (s₁, .error e)
      | (s₁, .ok) =>
        if (s₁.sig.transferTarget).isSome then (s₁, .ok)
        else execSeqChildren run cs s₁ := rfl

/-- Threading lemma: when a prefix of the children runs to completion
without error and without a pending transfer, the remaining children start
from exactly the state the prefix left. -/
theorem execSeqChildren_append {α : Type}
    (run : α → ExecState → ExecState × Outcome) (cs₁ cs₂ : List α) :
    ∀ (s s₁ : ExecState),
      execSeqChildren run cs₁ s = (s₁, .ok) →
      s₁.sig.transferTarget = none →
      execSeqChildren run (cs₁ ++ cs₂) s = execSeqChildren run cs₂ s₁ := by
  induction cs₁ with
  | nil =>
    intro s s₁ h ht
    rw [execSeqChildren_nil] at h
    obtain ⟨rfl, -⟩ : s = s₁ ∧ True := by
      constructor
      · exact congrArg Prod.fst h
      · trivial
    simp
  | cons c cs ih =>
    intro s s₁ h ht
    cases hr : run c s with
    | mk s' o =>
      cases o with
      | error e =>
        rw [execSeqChildren_cons, hr] at h
        exact absurd (congrArg Prod.snd h) (by simp)
      | ok =>
        by_cases htr : (s'.sig.transferTarget).isSome
        · rw [execSeqChildren_cons, hr] at h
          simp only [htr, if_true] at h
          have hs : s' = s₁ := congrArg Prod.fst h
          rw [hs, ht] at htr
          simp at htr
        · rw [execSeqChildren_cons, hr] at h
          simp only [htr, if_false] at h
          have hgoal : execSeqChildren run ((c :: cs) ++ cs₂) s =
              execSeqChildren run (cs ++ cs₂) s' := by
            rw [List.cons_append, execSeqChildren_cons, hr]
            simp [htr]
          rw [hgoal]
          exact ih s' s₁ h ht

/-- C6: SequentialStage children run in the fixed order, each starting from
the exact state left by its predecessors (threading lemma); if a child
errors, the remaining children are never executed (the stage result does
not depend on them), the child's error propagates as the stage result, and
the Context already written persists — for a failing LeafTask the Context
is exactly the one the predecessors left (no rollback). -/
theorem c6_sequential_order_error_abort :
    (∀ (α : Type) (run : α → ExecState → ExecState × Outcome)
        (cs₁ cs₂ : List α) (s s₁ : ExecState),
      execSeqChildren run cs₁ s = (s₁, .ok) →
      s₁.sig.transferTarget = none →
      execSeqChildren run (cs₁ ++ cs₂) s = execSeqChildren run cs₂ s₁) ∧
    (∀ (α : Type) (run : α → ExecState → ExecState × Outcome)
        (cs₁ cs₂ : List α) (c : α) (s s₁ s₂ : ExecState) (e : ExecError),
      execSeqChildren run cs₁ s = (s₁, .ok) →
      s₁.sig.transferTarget = none →
      run c s₁ = (s₂, .error e) →
      execSeqChildren run (cs₁ ++ c :: cs₂) s = (s₂, .error e)) ∧
    (∀ (cap : Cap) (l : LeafSpec) (s s' : ExecState) (e : ExecError),
      execLeaf cap l s = (s', .error e) → s'.ctx = s.ctx) := by
  refine ⟨fun α run cs₁ cs₂ s s₁ h ht => execSeqChildren_append run cs₁ cs₂ s s₁ h ht,
    ?_, ?_⟩
  · intro α run cs₁ cs₂ c s s₁ s₂ e h ht hr
    rw [execSeqChildren_append run cs₁ (c :: cs₂) s s₁ h ht,
      execSeqChildren_cons, hr]
  · intro cap l s s' e h
    cases hm : firstMissingKey l.templateKeys s.ctx with
    | some k =>
      rw [execLeaf, hm] at h
      have := congrArg Prod.fst h
      simp at this
      rw [← this]
    | none =>
      cases hc : cap l.name s.trace with
      | failure =>
        rw [execLeaf, hm] at h
        simp only [hc] at h
        have := congrArg Prod.fst h
        simp at this
        rw [← this]
      | produced t esc tr =>
        rw [execLeaf, hm] at h
        simp only [hc] at h
        exact absurd (congrArg Prod.snd h) (by simp)

/-- A capability whose external calls always fail. -/
def capFail : Cap := fun _ _ => .failure

/-- Witness for C6: a sequence whose first child fails with CapabilityError
aborts there with the failing child's state, regardless of the remaining
children. -/
theorem c6_sequential_order_error_abort_witness :
    execSeqChildren (execLeaf capFail)
        (([] : List LeafSpec) ++ roleAssignmentLeaf :: [proponentResearcherLeaf])
        initState =
      (⟨fullCtx, Signal.initial, ["RoleAssignmentAgent"]⟩,
       .error .capabilityError) :=
  c6_sequential_order_error_abort.2.1 LeafSpec (execLeaf capFail) []
    [proponentResearcherLeaf] roleAssignmentLeaf initState initState
    ⟨fullCtx, Signal.initial, ["RoleAssignmentAgent"]⟩ .capabilityError
    rfl rfl (by decide)

/-! ## C8: keys are never deleted; shared output key overwrites in place -/

/-- A leaf execution never removes a present key. -/
theorem execLeaf_preserves_present (cap : Cap) (l : LeafSpec) (s : ExecState)
    (k : String) (h : (ctxGet s.ctx k).isSome) :
    (ctxGet (execLeaf cap l s).1.ctx k).isSome := by
  cases hm : firstMissingKey l.templateKeys s.ctx with
  | some k₀ => simpa [execLeaf, hm] using h
  | none =>
    cases hc : cap l.name s.trace with
    | failure => simpa [execLeaf, hm, hc] using h
    | produced t esc tr =>
      simp only [execLeaf, hm, hc]
      exact ctxSet_preserves_present s.ctx l.outputKey k t h

/-- C8: for every stage execution, a key present in the Context before is
still present after — for leaf executions outright, and for sequential,
parallel and loop stages whenever each child execution preserves presence;
a repeated write to one key (the debaters' shared current_round) overwrites
in place leaving every other key's binding unchanged; and after a full
8-round debate loop the shared key holds the last writer's (the opponent
debater's) value. -/
theorem c8_keys_never_deleted :
    (∀ (cap : Cap) (l : LeafSpec) (s : ExecState) (k : String),
      (ctxGet s.ctx k).isSome → (ctxGet (execLeaf cap l s).1.ctx k).isSome) ∧
    (∀ (α : Type) (run : α → ExecState → ExecState × Outcome) (cs : List α)
        (s : ExecState) (k : String),
      (∀ c s', (ctxGet s'.ctx k).isSome → (ctxGet (run c s').1.ctx k).isSome) →
      (ctxGet s.ctx k).isSome →
      (ctxGet (execSeqChildren run cs s).1.ctx k).isSome) ∧
    (∀ (α : Type) (run : α → ExecState → ExecState × Outcome) (cs : List α)
        (s : ExecState) (k : String),
      (∀ c s', (ctxGet s'.ctx k).isSome → (ctxGet (run c s').1.ctx k).isSome) →
      (ctxGet s.ctx k).isSome →
      (ctxGet (execParChildren run cs s).1.ctx k).isSome) ∧
    (∀ (α : Type) (run : α → ExecState → ExecState × Outcome) (all : List α)
        (js : List Nat) (s : ExecState) (k : String),
      (∀ c s', (ctxGet s'.ctx k).isSome → (ctxGet (run c s').1.ctx k).isSome) →
      (ctxGet s.ctx k).isSome →
      (ctxGet (execLoopIdx run all js s).1.ctx k).isSome) ∧
    (∀ (ctx : Context) (k v v' k' : String),
      ctxGet (ctxSet (ctxSet ctx k v) k v') k = some v' ∧
      (k' ≠ k → ctxGet (ctxSet (ctxSet ctx k v) k v') k' = ctxGet ctx k')) ∧
    (∀ (cap : Cap) (s : ExecState) (ta tb : String),
      s.sig.escalate = false →
      (∀ tr, cap "ProponentDebater" tr = .produced ta false none) →
      (∀ tr, cap "OpponentDebater" tr = .produced tb false none) →
      (∃ v, ctxGet s.ctx "role_assignments" = some v) →
      (∃ v, ctxGet s.ctx "proponent_research_findings" = some v) →
      (∃ v, ctxGet s.ctx "opponent_research_findings" = some v) →
      ctxGet (execLoop (execLeaf cap) debateLoopChildren debateLoopBound
          s).1.ctx "current_round" = some tb) := by
  refine ⟨execLeaf_preserves_present, ?_, ?_, ?_, ?_, ?_⟩
  · intro α run cs
    induction cs with
    | nil => intro s k hrun h; simpa [execSeqChildren_nil] using h
    | cons c cs ih =>
      intro s k hrun h
      cases hr : run c s with
      | mk s₁ o =>
        have h₁ : (ctxGet s₁.ctx k).isSome := by
          have hh := hrun c s h
          rw [hr] at hh
          exact hh
        cases o with
        | error e => simpa [execSeqChildren_cons, hr] using h₁
        | ok =>
          by_cases ht : (s₁.sig.transferTarget).isSome
          · simpa [execSeqChildren_cons, hr, ht] using h₁
          · simp only [execSeqChildren_cons, hr, ht, if_false]
            exact ih s₁ k hrun h₁
  · intro α run cs
    induction cs with
    | nil => intro s k hrun h; simpa [execParChildren] using h
    | cons c cs ih =>
      intro s k hrun h
      cases hr : run c s with
      | mk s₁ o =>
        have h₁ : (ctxGet s₁.ctx k).isSome := by
          have hh := hrun c s h
          rw [hr] at hh
          exact hh
        have h₂ := ih s₁ k hrun h₁
        cases hx : execParChildren run cs s₁ with
        | mk s₂ o₂ =>
          rw [hx] at h₂
          simpa [execParChildren, hr, hx] using h₂
  · intro α run all js
    induction js with
    | nil => intro s k hrun h; simpa [execLoopIdx_nil] using h
    | cons j js ih =>
      intro s k hrun h
      cases hg : all[j % all.length]? with
      | none => simpa [execLoopIdx_cons, hg] using h
      | some c =>
        cases hr : run c s with
        | mk s₁ o =>
          have h₁ : (ctxGet s₁.ctx k).isSome := by
            have hh := hrun c s h
            rw [hr] at hh
            exact hh
          cases o with
          | error e => simpa [execLoopIdx_cons, hg, hr] using h₁
          | ok =>
            by_cases he : s₁.sig.escalate = true
            · simpa [execLoopIdx_cons, hg, hr, he] using h₁
            · simp only [execLoopIdx_cons, hg, hr, he, if_false,
                Bool.false_eq_true]
              exact ih s₁ k hrun h₁
  · intro ctx k v v' k'
    refine ⟨by simp [ctxGet_ctxSet], fun hk => ?_⟩
    rw [ctxGet_ctxSet_other _ _ _ _ (fun hh => hk hh.symm),
      ctxGet_ctxSet_other _ _ _ _ (fun hh => hk hh.symm)]
  · intro cap s ta tb hsig hA hB hra hpr hor
    obtain ⟨ra, hra⟩ := hra
    obtain ⟨pr, hpr⟩ := hpr
    obtain ⟨og, hor⟩ := hor
    have hrange : List.range debateLoopBound = [0, 1, 2, 3, 4, 5, 6, 7] := by
      decide
    simp [execLoop, hrange, execLoopIdx_cons, execLoopIdx_nil,
      debateLoopChildren, execLeaf, proponentDebaterLeaf, opponentDebaterLeaf,
      firstMissingKey, List.find?, Option.orElse, hsig, hra, hpr, hor, hA, hB,
      ctxGet_ctxSet]

/-- Witness for C8: a full quiet loop run from the seeded state leaves
current_round bound to the opponent debater's (last writer's) value. -/
theorem c8_keys_never_deleted_witness :
    ctxGet (execLoop (execLeaf capAllOk) debateLoopChildren debateLoopBound
        initState).1.ctx "current_round" = some "text" :=
  c8_keys_never_deleted.2.2.2.2.2 capAllOk initState "text" "text" rfl
    (fun _ => rfl) (fun _ => rfl) ⟨"r", by decide⟩ ⟨"p", by decide⟩
    ⟨"o", by decide⟩

/-! ## C3: transfer round trip -/

/-- Unfolding equation: with no fuel the run is suspended where it stands. -/
theorem runFrom_zero (cap : Cap) (name : String) (s : ExecState) :
    runFrom cap 0 name s = ⟨name, s, .ok⟩ := rfl

/-- C3: starting at the dispatcher (DebateTeamGreeter), whose capability
invokes transfer-control to AIDebateWorkflow (the `start_debate_workflow`
tool), and whose workflow's terminal LeafTask (DebateSummarizerAgent)
invokes transfer-control back to the name DebateTeamGreeter (the
`return_to_greeter` tool), two resolved task executions return control to a
task with the origin's name over the same shared Context, which then holds
entries written during both visits: debate_topic from the dispatcher visit
and final_debate_summary from the workflow visit. -/
theorem c3_transfer_round_trip
    (cap : Cap) (s : ExecState) (topic ra tp tq ta tb an sm : String)
    (hG : ∀ tr, cap "DebateTeamGreeter" tr =
      .produced topic false (some "AIDebateWorkflow"))
    (hRA : ∀ tr, cap "RoleAssignmentAgent" tr = .produced ra false none)
    (hP : ∀ tr, cap "ProponentResearcher" tr = .produced tp false none)
    (hO : ∀ tr, cap "OpponentResearcher" tr = .produced tq false none)
    (hA : ∀ tr, cap "ProponentDebater" tr = .produced ta false none)
    (hB : ∀ tr, cap "OpponentDebater" tr = .produced tb false none)
    (hAg : ∀ tr, cap "DebateStrategicAnalyst" tr = .produced an false none)
    (hS : ∀ tr, cap "DebateSummarizerAgent" tr =
      .produced sm false (some "DebateTeamGreeter")) :
    (runFrom cap 2 "DebateTeamGreeter" s).currentTask = "DebateTeamGreeter" ∧
    (runFrom cap 2 "DebateTeamGreeter" s).outcome = .ok ∧
    ctxGet (runFrom cap 2 "DebateTeamGreeter" s).state.ctx "debate_topic" =
      some topic ∧
    ctxGet (runFrom cap 2 "DebateTeamGreeter" s).state.ctx
      "final_debate_summary" = some sm := by
  have unfold2 : ∀ (name : String) (s : ExecState), runFrom cap 2 name s =
      (match lookupTask cap name with
       | none => ⟨name, s, .error (.unknownTransferTarget name)⟩
       | some run =>
         match run s with
         | (s₁, .error e) => ⟨name, s₁, .error e⟩
         | (s₁, .ok) =>
           match s₁.sig.transferTarget with
           | none => ⟨name, s₁, .ok⟩
           | some t => runFrom cap 1 t (clearSignal s₁)) := fun _ _ => rfl
  have unfold1 : ∀ (name : String) (s : ExecState), runFrom cap 1 name s =
      (match lookupTask cap name with
       | none => ⟨name, s, .error (.unknownTransferTarget name)⟩
       | some run =>
         match run s with
         | (s₁, .error e) => ⟨name, s₁, .error e⟩
         | (s₁, .ok) =>
           match s₁.sig.transferTarget with
           | none => ⟨name, s₁, .ok⟩
           | some t => runFrom cap 0 t (clearSignal s₁)) := fun _ _ => rfl
  have hrange : List.range debateLoopBound = [0, 1, 2, 3, 4, 5, 6, 7] := by
    decide
  refine ⟨?_, ?_, ?_, ?_⟩ <;>
    simp [unfold2, unfold1, runFrom_zero, lookupTask, execDebateWorkflow,
      execSeqChildren_cons, execSeqChildren_nil, runWorkflowChild, execLeaf,
      greeterLeaf, roleAssignmentLeaf, proponentResearcherLeaf,
      opponentResearcherLeaf, proponentDebaterLeaf, opponentDebaterLeaf,
      debateAggregatorLeaf, debateSummarizerLeaf, researchChildren,
      debateLoopChildren, execParChildren, execLoop, hrange, execLoopIdx_cons,
      execLoopIdx_nil, LoopExit.toOutcome, clearSignal, Signal.initial,
      firstMissingKey, List.find?, Option.orElse, ctxGet_ctxSet,
      hG, hRA, hP, hO, hA, hB, hAg, hS]

/-- A capability realising the C3 round trip: the greeter transfers into the
workflow, the summarizer transfers back, everything else succeeds quietly. -/
def capC3 : Cap := fun name _ =>
  if name = "DebateTeamGreeter" then
    .produced "topic" false (some "AIDebateWorkflow")
  else if name = "DebateSummarizerAgent" then
    .produced "sum" false (some "DebateTeamGreeter")
  else .produced "y" false none

/-- Witness for C3: the round trip realised by `capC3` from the empty
state. -/
theorem c3_transfer_round_trip_witness :
    (runFrom capC3 2 "DebateTeamGreeter" emptyState).currentTask =
      "DebateTeamGreeter" ∧
    ctxGet (runFrom capC3 2 "DebateTeamGreeter" emptyState).state.ctx
      "debate_topic" = some "topic" ∧
    ctxGet (runFrom capC3 2 "DebateTeamGreeter" emptyState).state.ctx
      "final_debate_summary" = some "sum" :=
  have hG : ∀ tr, capC3 "DebateTeamGreeter" tr =
      .produced "topic" false (some "AIDebateWorkflow") := fun _ => rfl
  have hRA : ∀ tr, capC3 "RoleAssignmentAgent" tr =
      .produced "y" false none := fun _ => rfl
  have hP : ∀ tr, capC3 "ProponentResearcher" tr =
      .produced "y" false none := fun _ => rfl
  have hO : ∀ tr, capC3 "OpponentResearcher" tr =
      .produced "y" false none := fun _ => rfl
  have hA : ∀ tr, capC3 "ProponentDebater" tr =
      .produced "y" false none := fun _ => rfl
  have hB : ∀ tr, capC3 "OpponentDebater" tr =
      .produced "y" false none := fun _ => rfl
  have hAg : ∀ tr, capC3 "DebateStrategicAnalyst" tr =
      .produced "y" false none := fun _ => rfl
  have hS : ∀ tr, capC3 "DebateSummarizerAgent" tr =
      .produced "sum" false (some "DebateTeamGreeter") := fun _ => rfl
  have h := c3_transfer_round_trip capC3 emptyState "topic" "y" "y" "y" "y"
    "y" "y" "sum" hG hRA hP hO hA hB hAg hS
  ⟨h.1, h.2.2.1, h.2.2.2⟩

end DebateTeam

namespace TestDeployment

/-! ## Deployment test script configuration logic

Embedded from `main` in src/deployment/test_deployment.py (lines 124–165):
configuration is first computed as flag-else-environment, then each variable
is unconditionally overwritten by the environment value; validation then
checks Python truthiness (absent or empty string both fail) and returns
after printing a missing-variable message, otherwise `vertexai.init` is
called with the environment-derived values and a `gs://` staging bucket. -/

/-- The three configuration flags (`--project_id`, `--location`,
`--bucket`); `none` models an unsupplied flag. -/
structure DeployFlags where
  project_id : Option String
  location : Option String
  bucket : Option String
deriving Repr, DecidableEq

/-- The three environment variables read via `os.getenv`. -/
structure DeployEnv where
  googleCloudProject : Option String
  googleCloudLocation : Option String
  googleCloudStorageBucket : Option String
deriving Repr, DecidableEq

/-- Python truthiness of an optional string: `None` and `""` are falsy. -/
def truthy : Option String → Bool
  | none => false
  | some s => s ≠ ""

/-- `x if x else y`, the flag-priority pattern of lines 124–136. -/
def orTruthy (x y : Option String) : Option String :=
  if truthy x then x else y

/-- How far `main` gets: an early return with a missing-variable message, or
a `vertexai.init` call with the given project, location and staging bucket
(after which the script contacts the agent). -/
inductive MainResult where
  | missingVar (msg : String)
  | initialized (project location stagingBucket : String)
deriving Repr, DecidableEq

/-- The configuration portion of `main`, embedded statement by statement:
flag-else-env assignments (lines 124–136), the unconditional environment
overwrite (lines 141–143), the truthiness validation with early returns
(lines 147–157), and the `vertexai.init` call (lines 161–165). -/
def main (flags : DeployFlags) (env : DeployEnv) : MainResult :=
  let project_id := orTruthy flags.project_id env.googleCloudProject
  let location := orTruthy flags.location env.googleCloudLocation
  let bucket := orTruthy flags.bucket env.googleCloudStorageBucket
  let project_id := env.googleCloudProject
  let location := env.googleCloudLocation
  let bucket := env.googleCloudStorageBucket
  if truthy project_id = false then
    .missingVar "Missing required environment variable: GOOGLE_CLOUD_PROJECT"
  else if truthy location = false then
    .missingVar "Missing required environment variable: GOOGLE_CLOUD_LOCATION"
  else if truthy bucket = false then
    .missingVar "Missing required environment variable: GOOGLE_CLOUD_STORAGE_BUCKET"
  else
    .initialized (project_id.getD "") (location.getD "")
      ("gs://" ++ bucket.getD "")

/-- C10: the flag values never influence test_deployment's `main` — the
flag-derived configuration is unconditionally overwritten by the
environment variables, so the project, location and staging bucket actually
used are exactly GOOGLE_CLOUD_PROJECT, GOOGLE_CLOUD_LOCATION and
GOOGLE_CLOUD_STORAGE_BUCKET — and when any of the three environment
variables is unset, `main` returns a missing-variable message without
reaching `vertexai.init`. -/
theorem c10_env_overrides_flags :
    (∀ (f₁ f₂ : DeployFlags) (env : DeployEnv), main f₁ env = main f₂ env) ∧
    (∀ (f : DeployFlags) (p l b : String), p ≠ "" → l ≠ "" → b ≠ "" →
      main f ⟨some p, some l, some b⟩ =
        .initialized p l ("gs://" ++ b)) ∧
    (∀ (f : DeployFlags) (env : DeployEnv),
      env.googleCloudProject = none ∨ env.googleCloudLocation = none ∨
        env.googleCloudStorageBucket = none →
      ∃ msg, main f env = .missingVar msg) := by
  refine ⟨fun f₁ f₂ env => rfl, ?_, ?_⟩
  · intro f p l b hp hl hb
    simp [main, truthy, hp, hl, hb]
  · intro f env h
    by_cases hp : truthy env.googleCloudProject = false
    · exact ⟨"Missing required environment variable: GOOGLE_CLOUD_PROJECT",
        by simp [main, hp]⟩
    · by_cases hl : truthy env.googleCloudLocation = false
      · exact ⟨"Missing required environment variable: GOOGLE_CLOUD_LOCATION",
          by simp [main, hp, hl]⟩
      · by_cases hb : truthy env.googleCloudStorageBucket = false
        · exact
            ⟨"Missing required environment variable: GOOGLE_CLOUD_STORAGE_BUCKET",
             by simp [main, hp, hl, hb]⟩
        · exfalso
          rcases h with h | h | h
          · rw [h] at hp
            simp [truthy] at hp
          · rw [h] at hl
            simp [truthy] at hl
          · rw [h] at hb
            simp [truthy] at hb

/-- Witness for C10: concrete flag values are ignored in favour of the
environment, and an unset project variable aborts the run. -/
theorem c10_env_overrides_flags_witness :
    main ⟨some "flag-p", some "flag-l", some "flag-b"⟩
        ⟨some "p", some "l", some "b"⟩ =
      .initialized "p" "l" ("gs://" ++ "b") ∧
    ∃ msg, main ⟨some "flag-p", none, some ""⟩ ⟨none, some "l", some "b"⟩ =
      .missingVar msg :=
  ⟨c10_env_overrides_flags.2.1 ⟨some "flag-p", some "flag-l", some "flag-b"⟩
      "p" "l" "b" (by decide) (by decide) (by decide),
   c10_env_overrides_flags.2.2 ⟨some "flag-p", none, some ""⟩
      ⟨none, some "l", some "b"⟩ (Or.inl rfl)⟩

end TestDeployment
